import Mathlib

/-!
Verification development for the go-mcp repository: a shallow embedding of
the tool registry (pkg/mcp/tool/registry.go), schema validation
(pkg/mcp/protocol/types.go), the protocol client (pkg/mcp/protocol/client.go)
and the peer manager (the server package), with theorems settling the
specification claims about them.

Go `map[string]T` values are embedded as association lists with Go map
lookup/insert/delete semantics; Go `interface\x7b\x7d` values as the tagged
variant `GoVal`; Go `error` results as `Except String`; Go run-time panics
(failed unchecked type assertions) as an outer `Option` whose `none` marks
the panic.  Every operation is modelled as one sequential call by a caller
that holds no locks; where a single call chain re-acquires the client's own
non-reentrant `sync.RWMutex` (`Connect` holding the write lock across
`discoverCapabilities`), the resulting permanent block is modelled
explicitly via `BlockingCall.blocksForever`.
-/

namespace GoMcp

/-- Dynamic Go values (`interface\x7b\x7d`).  `strs` embeds a Go `[]string`,
which is a distinct dynamic type from `[]interface\x7b\x7d` (`arr`); `obj`
embeds `map[string]interface\x7b\x7d`.  Numeric payloads of `floatVal` are
irrelevant to every claim and are carried as rationals. -/
inductive GoVal : Type where
  | null : GoVal
  | boolean : Bool → GoVal
  | intVal : Int → GoVal
  | floatVal : ℚ → GoVal
  | strVal : String → GoVal
  | arr : List GoVal → GoVal
  | obj : List (String × GoVal) → GoVal
  | strs : List String → GoVal

/-- Go `%T` of the dynamic type of a value (as printed by `fmt.Errorf`). -/
def goTypeName : GoVal → String
  | .null => "<nil>"
  | .boolean _ => "bool"
  | .intVal _ => "int"
  | .floatVal _ => "float64"
  | .strVal _ => "string"
  | .arr _ => "[]interface \x7b\x7d"
  | .obj _ => "map[string]interface \x7b\x7d"
  | .strs _ => "[]string"

/-- Go map lookup `m[k]` on an association list. -/
def lookupKey {α : Type} : List (String × α) → String → Option α
  | [], _ => none
  | (a, b) :: rest, k => if k = a then some b else lookupKey rest k

/-- Go map assignment `m[k] = v` (replace if present, else add). -/
def setKey {α : Type} : List (String × α) → String → α → List (String × α)
  | [], k, v => [(k, v)]
  | (a, b) :: rest, k, v =>
      if a = k then (k, v) :: rest else (a, b) :: setKey rest k v

/-- Go map `delete(m, k)`. -/
def eraseKey {α : Type} : List (String × α) → String → List (String × α)
  | [], _ => []
  | (a, b) :: rest, k =>
      if a = k then eraseKey rest k else (a, b) :: eraseKey rest k

/-! ### pkg/mcp/protocol/types.go — Tool and schema validation -/

/-- `protocol.Tool`.  `InputSchema` is a Go `map[string]interface\x7b\x7d`
that may be nil (`none`). -/
structure Tool where
  Name : String
  Description : String
  InputSchema : Option (List (String × GoVal))

/-- `protocol.ValidateType` (types.go:202): checks a value's primitive Go
type against a property schema's `type` field. -/
def ValidateType (schema : List (String × GoVal)) (value : GoVal) :
    Except String Unit :=
  match lookupKey schema "type" with
  | some (.strVal expectedType) =>
    if expectedType = "string" then
      match value with
      | .strVal _ => .ok ()
      | v => .error ("expected string, got " ++ goTypeName v)
    else if expectedType = "number" then
      match value with
      | .intVal _ => .ok ()
      | .floatVal _ => .ok ()
      | v => .error ("expected number, got " ++ goTypeName v)
    else if expectedType = "boolean" then
      match value with
      | .boolean _ => .ok ()
      | v => .error ("expected boolean, got " ++ goTypeName v)
    else if expectedType = "array" then
      match value with
      | .arr _ => .ok ()
      | v => .error ("expected array, got " ++ goTypeName v)
    else if expectedType = "object" then
      match value with
      | .obj _ => .ok ()
      | v => .error ("expected object, got " ++ goTypeName v)
    else .error ("unsupported type: " ++ expectedType)
  | _ => .error "schema missing type"

/-- The required-fields loop of `ValidateArguments` (types.go:181-187):
first field of `required` that is absent from `args`. -/
def findMissing (args : List (String × GoVal)) (required : List String) :
    Option String :=
  required.find? (fun f => (lookupKey args f).isNone)

/-- The per-property loop of `ValidateArguments` (types.go:189-197).
Outer `none` is the Go panic of the unchecked assertion
`propSchema.(map[string]interface\x7b\x7d)` on a non-object property schema. -/
def validateProps (props : List (String × GoVal)) :
    List (String × GoVal) → Option (Except String Unit)
  | [] => some (.ok ())
  | (name, value) :: rest =>
    match lookupKey props name with
    | none => validateProps props rest
    | some (.obj propSchema) =>
      match ValidateType propSchema value with
      | .error e => some (.error ("invalid argument " ++ name ++ ": " ++ e))
      | .ok _ => validateProps props rest
    | some _ => none

/-- `Tool.ValidateArguments` (types.go:178).  The `required` check applies
only when the schema's `required` entry has dynamic type `[]string`, exactly
as the Go type assertion `schema["required"].([]string)` does. -/
def Tool.ValidateArguments (t : Tool) (args : List (String × GoVal)) :
    Option (Except String Unit) :=
  let schema := t.InputSchema.getD []
  match
    (match lookupKey schema "required" with
     | some (.strs required) => findMissing args required
     | _ => none) with
  | some f => some (.error ("missing required field: " ++ f))
  | none =>
    match lookupKey schema "properties" with
    | some (.obj props) => validateProps props args
    | _ => some (.ok ())

/-- `protocol.Content` items; only the text form is produced by the code. -/
inductive Content : Type where
  | text : String → String → Content

/-- `protocol.CallToolResult`. -/
structure CallToolResult where
  content : List Content
  isError : Bool

/-- `Tool.ValidateAndExecute` (types.go:162): validates then returns the
mock execution result. -/
def Tool.ValidateAndExecute (t : Tool) (args : List (String × GoVal)) :
    Option (Except String CallToolResult) :=
  match t.ValidateArguments args with
  | none => none
  | some (.error e) => some (.error ("invalid arguments: " ++ e))
  | some (.ok _) =>
      some (.ok { content := [Content.text "text" "Tool execution result"],
                  isError := false })

/-- `protocol.ToolCall`. -/
structure ToolCall where
  Name : String
  Arguments : List (String × GoVal)

/-! ### pkg/mcp/tool/registry.go -/

/-- `tool.Registry`: tool name → definition, tool name → owning source. -/
structure Registry where
  tools : List (String × Tool)
  sources : List (String × String)

/-- `tool.NewRegistry`. -/
def NewRegistry : Registry := { tools := [], sources := [] }

/-- `Registry.RegisterTool` (registry.go:27). -/
def Registry.RegisterTool (r : Registry) (tool : Tool) (source : String) :
    Except String Registry :=
  if tool.Name = "" then .error "tool name cannot be empty"
  else
    match tool.InputSchema with
    | none => .error "tool input schema cannot be nil"
    | some _ =>
      match lookupKey r.sources tool.Name with
      | some existingSource =>
          .error ("tool " ++ tool.Name ++ " already registered by source " ++
                  existingSource)
      | none =>
          .ok { tools := setKey r.tools tool.Name tool,
                sources := setKey r.sources tool.Name source }

/-- `Registry.GetTool` (registry.go:59). -/
def Registry.GetTool (r : Registry) (name : String) : Option Tool :=
  lookupKey r.tools name

/-- `Registry.GetToolSource` (registry.go:67). -/
def Registry.GetToolSource (r : Registry) (name : String) : Option String :=
  lookupKey r.sources name

/-- `Registry.UnregisterTool` (registry.go:75): deletes from both maps,
returns no error. -/
def Registry.UnregisterTool (r : Registry) (name : String) : Registry :=
  { tools := eraseKey r.tools name, sources := eraseKey r.sources name }

/-- `Registry.ListTools` (registry.go:101). -/
def Registry.ListTools (r : Registry) : List Tool :=
  r.tools.map Prod.snd

/-- `Registry.ExecuteTool` (registry.go:125). -/
def Registry.ExecuteTool (r : Registry) (call : ToolCall) :
    Option (Except String CallToolResult) :=
  match lookupKey r.tools call.Name with
  | none => some (.error ("tool " ++ call.Name ++ " not found"))
  | some tool => tool.ValidateAndExecute call.Arguments

/-! ### pkg/mcp/protocol — JSON-RPC envelopes and the Transport interface

The `Transport` interface (Send/SendWithContext/Receive/Start/Close/
IsConnected) is modelled by its observable behaviour: `startErr` is the
outcome `Start` reports, `recvQueue` the successive outcomes of `Receive`,
`sendErr` the outcome every send reports, `closeErr` the outcome `Close`
reports, and `sent` records the requests actually written, so "nothing was
sent" is expressible.  Request ids (`uuid.New()`) are nondeterministic and
carry no information used by any claim, so they are not modelled. -/

/-- `protocol.JSONRPCError` (code + message; `Data` unused by the client). -/
structure JSONRPCError where
  Code : Int
  Message : String

/-- `protocol.JSONRPCResponse`: result payload or error, as the client
reads it.  A Go nil `Result` is `GoVal.null`. -/
structure JSONRPCResponse where
  Result : GoVal
  Error : Option JSONRPCError

/-- A request as written to the transport: method plus params. -/
structure SentRequest where
  Method : String
  Params : GoVal

/-- Behavioural model of one `protocol.Transport`. -/
structure Transport where
  startErr : Option String
  connected : Bool
  closed : Bool
  closeErr : Option String
  sendErr : Option String
  recvQueue : List (Except String JSONRPCResponse)
  sent : List SentRequest

/-- `Transport.Start`. -/
def Transport.Start (t : Transport) : Except String Transport :=
  match t.startErr with
  | some e => .error e
  | none => .ok { t with connected := true }

/-- `Transport.IsConnected`. -/
def Transport.IsConnected (t : Transport) : Bool := t.connected

/-- `Transport.Send` / `Transport.SendWithContext`: report `sendErr`, or
append the request to the wire. -/
def Transport.SendRequest (t : Transport) (method : String) (params : GoVal) :
    Except String Transport :=
  match t.sendErr with
  | some e => .error e
  | none => .ok { t with sent := t.sent ++ [{ Method := method, Params := params }] }

/-- `Transport.Receive`: pop the next receive outcome. -/
def Transport.Receive (t : Transport) :
    Except String JSONRPCResponse × Transport :=
  match t.recvQueue with
  | [] => (.error "transport closed", t)
  | r :: rest => (r, { t with recvQueue := rest })

/-- `Transport.Close`: close the channel, report `closeErr`. -/
def Transport.Close (t : Transport) : Transport × Option String :=
  ({ t with connected := false, closed := true }, t.closeErr)

/-! ### pkg/mcp/protocol/client.go -/

/-- `protocol.ClientInfo`. -/
structure ClientInfo where
  Name : String
  Version : String

/-- `protocol.ToolsCapability`. -/
structure ToolsCapability where
  ListChanged : Bool

/-- `protocol.ResourcesCapability`. -/
structure ResourcesCapability where
  Subscribe : Bool
  ListChanged : Bool

/-- `protocol.ServerCapabilities` (the fields the client code touches). -/
structure ServerCapabilities where
  Resources : Option ResourcesCapability
  Tools : Option ToolsCapability

/-- `protocol.Resource` (the fields `ListResources` fills). -/
structure Resource where
  Name : String
  Description : String
  «Type» : String
  Metadata : Option (List (String × GoVal))

/-- `protocol.Client`. -/
structure Client where
  transport : Option Transport
  clientInfo : ClientInfo
  capabilities : Option ServerCapabilities
  protocolVersion : String

/-- `protocol.NewClient`. -/
def NewClient (info : ClientInfo) : Client :=
  { transport := none, clientInfo := info, capabilities := none,
    protocolVersion := "1.0" }

/-- `Client.IsConnected` (client.go:348). -/
def Client.IsConnected (c : Client) : Bool :=
  match c.transport with
  | some t => t.IsConnected
  | none => false

/-- `Client.GetServerCapabilities` (client.go:292); the Go copy is
value-identical to the cached record. -/
def Client.GetServerCapabilities (c : Client) : Option ServerCapabilities :=
  c.capabilities

/-- `Client.performHandshake` (client.go:80), acting on the given transport
(the Go code reads it from `c.transport`, which `Connect` has just set). -/
def Client.performHandshake (c : Client) (t : Transport) :
    Transport × Except String Unit :=
  let handshakeParams : GoVal :=
    .obj [("version", .strVal c.protocolVersion),
          ("client", .obj [("name", .strVal c.clientInfo.Name),
                           ("version", .strVal c.clientInfo.Version)])]
  match t.SendRequest "mcp.handshake" handshakeParams with
  | .error e => (t, .error ("handshake request failed: " ++ e))
  | .ok t1 =>
    match t1.Receive with
    | (.error e, t2) => (t2, .error ("handshake response failed: " ++ e))
    | (.ok response, t2) =>
      match response.Error with
      | some err =>
          (t2, .error ("handshake error: " ++ err.Message ++ " (code: " ++
                       toString err.Code ++ ")"))
      | none =>
        match response.Result with
        | .obj result =>
          match lookupKey result "version" with
          | some (.strVal version) =>
            if version = c.protocolVersion then (t2, .ok ())
            else
              (t2, .error ("incompatible protocol version: got " ++ version ++
                           ", expected " ++ c.protocolVersion))
          | _ => (t2, .error "missing protocol version in handshake response")
        | _ => (t2, .error "invalid handshake response format")

/-- One element of the `list_tools` reply array (client.go:184-199).
`some none` is the `continue` on a non-object element; outer `none` is the
Go panic of the unchecked assertion
`inputSchema.(map[string]interface\x7b\x7d)` when the element's
`input_schema` is absent or not an object. -/
def parseToolItem (item : GoVal) : Option (Option Tool) :=
  match item with
  | .obj toolMap =>
    let name := match lookupKey toolMap "name" with
      | some (.strVal s) => s
      | _ => ""
    let description := match lookupKey toolMap "description" with
      | some (.strVal s) => s
      | _ => ""
    match lookupKey toolMap "input_schema" with
    | some (.obj schema) =>
        some (some { Name := name, Description := description,
                     InputSchema := some schema })
    | _ => none
  | _ => some none

/-- The `list_tools` reply-array loop (client.go:183-199). -/
def parseToolsArray : List GoVal → Option (List Tool)
  | [] => some []
  | item :: rest =>
    match parseToolItem item with
    | none => none
    | some none => parseToolsArray rest
    | some (some t) =>
      match parseToolsArray rest with
      | none => none
      | some ts => some (t :: ts)

/-- `Client.ListTools` (client.go:147).  Outer `none` is a Go panic during
reply parsing. -/
def Client.ListTools (c : Client) :
    Option (Client × Except String (List Tool)) :=
  match c.transport with
  | none => some (c, .error "client not connected")
  | some transport =>
    if transport.IsConnected then
      match transport.SendRequest "mcp.list_tools" (.obj []) with
      | .error e => some (c, .error ("list_tools request failed: " ++ e))
      | .ok t1 =>
        match t1.Receive with
        | (.error e, t2) =>
            some ({ c with transport := some t2 },
                  .error ("list_tools response failed: " ++ e))
        | (.ok response, t2) =>
          let c2 : Client := { c with transport := some t2 }
          match response.Error with
          | some err =>
              some (c2, .error ("list_tools error: " ++ err.Message ++
                                " (code: " ++ toString err.Code ++ ")"))
          | none =>
            match response.Result with
            | .obj result =>
              match lookupKey result "tools" with
              | some (.arr toolsData) =>
                match parseToolsArray toolsData with
                | none => none
                | some tools => some (c2, .ok tools)
              | _ => some (c2, .error "invalid or missing tools array in response")
            | _ => some (c2, .error "invalid list_tools response format")
    else some (c, .error "client not connected")

/-- One element of the `list_resources` reply array (client.go:241-258);
every type assertion here is the soft, two-result form, so no panic. -/
def parseResourceItem (item : GoVal) : Option Resource :=
  match item with
  | .obj resourceMap =>
    some { Name := match lookupKey resourceMap "name" with
             | some (.strVal s) => s
             | _ => ""
           Description := match lookupKey resourceMap "description" with
             | some (.strVal s) => s
             | _ => ""
           «Type» := match lookupKey resourceMap "type" with
             | some (.strVal s) => s
             | _ => ""
           Metadata := match lookupKey resourceMap "metadata" with
             | some (.obj kvs) => some kvs
             | _ => none }
  | _ => none

/-- `Client.ListResources` (client.go:204). -/
def Client.ListResources (c : Client) :
    Client × Except String (List Resource) :=
  match c.transport with
  | none => (c, .error "client not connected")
  | some transport =>
    if transport.IsConnected then
      match transport.SendRequest "mcp.list_resources" (.obj []) with
      | .error e => (c, .error ("list_resources request failed: " ++ e))
      | .ok t1 =>
        match t1.Receive with
        | (.error e, t2) =>
            ({ c with transport := some t2 },
             .error ("list_resources response failed: " ++ e))
        | (.ok response, t2) =>
          let c2 : Client := { c with transport := some t2 }
          match response.Error with
          | some err =>
              (c2, .error ("list_resources error: " ++ err.Message ++
                           " (code: " ++ toString err.Code ++ ")"))
          | none =>
            match response.Result with
            | .obj result =>
              match lookupKey result "resources" with
              | some (.arr resourcesData) =>
                  (c2, .ok (resourcesData.filterMap parseResourceItem))
              | _ => (c2, .error "invalid or missing resources array in response")
            | _ => (c2, .error "invalid list_resources response format")
    else (c, .error "client not connected")

/-- `Client.CallTool` (client.go:263). -/
def Client.CallTool (c : Client) (name : String) (params : GoVal) :
    Client × Except String GoVal :=
  match c.transport with
  | none => (c, .error "client not connected")
  | some transport =>
    if transport.IsConnected then
      match transport.SendRequest name params with
      | .error e => (c, .error ("tool call request failed: " ++ e))
      | .ok t1 =>
        match t1.Receive with
        | (.error e, t2) =>
            ({ c with transport := some t2 },
             .error ("tool call response failed: " ++ e))
        | (.ok response, t2) =>
          let c2 : Client := { c with transport := some t2 }
          match response.Error with
          | some err =>
              (c2, .error ("tool call error: " ++ err.Message ++ " (code: " ++
                           toString err.Code ++ ")"))
          | none => (c2, .ok response.Result)
    else (c, .error "client not connected")

/-- `Client.HealthCheck` (client.go:306). -/
def Client.HealthCheck (c : Client) : Client × Except String Unit :=
  match c.transport with
  | none => (c, .error "client not connected")
  | some transport =>
    if transport.IsConnected then
      match transport.SendRequest "mcp.ping" (.obj []) with
      | .error e => (c, .error ("health check request failed: " ++ e))
      | .ok t1 =>
        match t1.Receive with
        | (.error e, t2) =>
            ({ c with transport := some t2 },
             .error ("health check response failed: " ++ e))
        | (.ok response, t2) =>
          let c2 : Client := { c with transport := some t2 }
          match response.Error with
          | some err =>
              (c2, .error ("health check error: " ++ err.Message ++
                           " (code: " ++ toString err.Code ++ ")"))
          | none => (c2, .ok ())
    else (c, .error "client not connected")

/-- The capability record `Connect` installs after a successful handshake
(client.go:66-69) and `discoverCapabilities` re-installs (client.go:141-142). -/
def initialCaps : ServerCapabilities :=
  { Resources := some { Subscribe := false, ListChanged := true },
    Tools := some { ListChanged := true } }

/-- The outcome of one Go call that either returns or blocks forever on a
lock acquisition that can never succeed. -/
inductive BlockingCall (α : Type) : Type where
  | returns : α → BlockingCall α
  | blocksForever : BlockingCall α

/-- `Client.ListTools` as invoked by a goroutine that may already hold the
client's write lock (`writerHeld`): the `c.mutex.RLock()` at client.go:148
on the same non-reentrant `sync.RWMutex` then blocks forever; a caller
holding nothing proceeds exactly as `Client.ListTools`. -/
def Client.ListToolsUnder (c : Client) (writerHeld : Bool) :
    BlockingCall (Option (Client × Except String (List Tool))) :=
  if writerHeld then .blocksForever else .returns c.ListTools

/-- `Client.ListResources` under the same lock discipline (the
`c.mutex.RLock()` at client.go:205). -/
def Client.ListResourcesUnder (c : Client) (writerHeld : Bool) :
    BlockingCall (Client × Except String (List Resource)) :=
  if writerHeld then .blocksForever else .returns c.ListResources

/-- `Client.discoverCapabilities` (client.go:124): tool listing mandatory,
resource listing best-effort (its failure only logs a warning).  The method
first calls `c.ListTools` (which takes `c.mutex.RLock()`, client.go:148)
and later takes `c.mutex.Lock()` itself (client.go:138); with the write
lock already held by the calling goroutine — as it always is when `Connect`
invokes it — each of those acquisitions blocks forever.  A `.returns none`
is a Go panic (propagated from `ListTools`, or the nil-pointer write when
`capabilities` is nil). -/
def Client.discoverCapabilities (c : Client) (writerHeld : Bool) :
    BlockingCall (Option (Client × Except String Unit)) :=
  match c.ListToolsUnder writerHeld with
  | .blocksForever => .blocksForever
  | .returns none => .returns none
  | .returns (some (c1, .error e)) =>
      .returns (some (c1, .error ("failed to discover tools: " ++ e)))
  | .returns (some (c1, .ok _)) =>
    match c1.ListResourcesUnder writerHeld with
    | .blocksForever => .blocksForever
    | .returns (c2, _) =>
      if writerHeld then .blocksForever
      else
        match c2.capabilities with
        | none => .returns none
        | some _ =>
            .returns (some ({ c2 with capabilities := some initialCaps }, .ok ()))

/-- `Client.Connect` (client.go:46).  The caller holds no locks, so the
`c.mutex.Lock()` at client.go:47 succeeds and is held (via `defer`) for the
whole body; consequently `discoverCapabilities` runs with `writerHeld`
true.  On a returning path the result carries the final client and the
final state of the transport that was passed in (so its closure is
observable, as it is to the Go caller holding the pointer), and the
outcome; `.returns none` is a Go panic. -/
def Client.Connect (c : Client) (transport : Transport) :
    BlockingCall (Option (Client × Transport × Except String Unit)) :=
  if (match c.transport with
      | some t0 => t0.IsConnected
      | none => false) then
    .returns (some (c, transport, .error "client already connected"))
  else
    match transport.Start with
    | .error e =>
        .returns (some (c, transport, .error ("failed to start transport: " ++ e)))
    | .ok t1 =>
      match c.performHandshake t1 with
      | (t2, .error e) =>
          .returns (some ({ c with transport := none }, (t2.Close).1, .error e))
      | (t2, .ok _) =>
        let c2 : Client :=
          { c with transport := some t2, capabilities := some initialCaps }
        match c2.discoverCapabilities true with
        | .blocksForever => .blocksForever
        | .returns none => .returns none
        | .returns (some (c3, .error e)) =>
          match c3.transport with
          | some t4 =>
              .returns (some ({ c3 with transport := none }, (t4.Close).1, .error e))
          | none => .returns (some ({ c3 with transport := none }, t2, .error e))
        | .returns (some (c3, .ok _)) =>
          match c3.transport with
          | some t4 => .returns (some (c3, t4, .ok ()))
          | none => .returns (some (c3, t2, .ok ()))

/-- `Client.Disconnect` (client.go:335). -/
def Client.Disconnect (c : Client) : Client × Except String Unit :=
  match c.transport with
  | none => (c, .ok ())
  | some t =>
    if t.IsConnected then
      match t.Close with
      | (_, some e) => ({ c with transport := none }, .error e)
      | (_, none) => ({ c with transport := none }, .ok ())
    else (c, .ok ())

/-! ### The server package (peer manager, src/unnamed/part_000) -/

/-- The `protocol.MCPClient` interface as the manager exercises it,
modelled by observable behaviour: `connected` is what `IsConnected`
reports, `listToolsResult` the outcome of `ListTools`, `disconnectErr` the
outcome of `Disconnect` (every implementation additionally ends
disconnected after `Disconnect`). -/
structure MCPClientBehavior where
  connected : Bool
  listToolsResult : Except String (List Tool)
  disconnectErr : Option String

/-- The `Disconnect` call on the interface. -/
def MCPClientBehavior.Disconnect (c : MCPClientBehavior) :
    MCPClientBehavior × Option String :=
  ({ c with connected := false }, c.disconnectErr)

/-- `server.Server` (the fields the verified manager operations read or
write; `Capabilities`, `Transport` and `Config` are never consulted by
them). -/
structure Server where
  Name : String
  Client : Option MCPClientBehavior
  Tools : List Tool

/-- `Server.IsRunning`. -/
def Server.IsRunning (s : Server) : Bool :=
  match s.Client with
  | some c => c.connected
  | none => false

/-- `server.Manager`. -/
structure Manager where
  servers : List (String × Server)

/-- `server.NewManager`. -/
def NewManager : Manager := { servers := [] }

/-- `Manager.GetServer`. -/
def Manager.GetServer (m : Manager) (name : String) : Except String Server :=
  match lookupKey m.servers name with
  | none => .error ("server not found: " ++ name)
  | some s => .ok s

/-- `Manager.ShutdownServer` (part_000:520): on a disconnect error the
entry is NOT deleted (the early return precedes the `delete`). -/
def Manager.ShutdownServer (m : Manager) (name : String) :
    Manager × Except String Unit :=
  match lookupKey m.servers name with
  | none => (m, .error ("server not found: " ++ name))
  | some server =>
    match server.Client with
    | some c =>
      match c.Disconnect with
      | (c2, some e) =>
          ({ servers := setKey m.servers name { server with Client := some c2 } },
           .error ("failed to disconnect from server: " ++ e))
      | (c2, none) =>
          ({ servers := eraseKey (setKey m.servers name { server with Client := some c2 }) name },
           .ok ())
    | none => ({ servers := eraseKey m.servers name }, .ok ())

/-- One step of the `ShutdownAll` loop (part_000:545-551), threading
(last error so far, names on which `Disconnect` was invoked). -/
def shutdownStep (acc : Option String × List String) (p : String × Server) :
    Option String × List String :=
  match p.2.Client with
  | some c =>
    match c.disconnectErr with
    | some e =>
        (some ("failed to disconnect from server " ++ p.1 ++ ": " ++ e),
         acc.2 ++ [p.1])
    | none => (acc.1, acc.2 ++ [p.1])
  | none => acc

/-- `Manager.ShutdownAll` (part_000:540): best-effort disconnect of every
peer, then clear the map, returning the last error.  The third component is
the trace of peers whose `Disconnect` was invoked. -/
def Manager.ShutdownAll (m : Manager) :
    Manager × Option String × List String :=
  let r := m.servers.foldl shutdownStep (none, [])
  ({ servers := [] }, r.1, r.2)

/-- The `DiscoverTools` loop (part_000:581-596): returns the updated server
entries (each successful peer's `Tools` refreshed) and the aggregated map. -/
def discoverLoop : List (String × Server) →
    List (String × Server) × List (String × List Tool)
  | [] => ([], [])
  | (name, server) :: rest =>
    let r := discoverLoop rest
    match server.Client with
    | some c =>
      if c.connected then
        match c.listToolsResult with
        | .ok serverTools =>
            ((name, { server with Tools := serverTools }) :: r.1,
             (name, serverTools) :: r.2)
        | .error _ => ((name, server) :: r.1, r.2)
      else ((name, server) :: r.1, r.2)
    | none => ((name, server) :: r.1, r.2)

/-- `Manager.DiscoverTools` (part_000:571). -/
def Manager.DiscoverTools (m : Manager) :
    Manager × Except String (List (String × List Tool)) :=
  if m.servers.isEmpty then (m, .error "no servers available")
  else
    let r := discoverLoop m.servers
    ({ servers := r.1 }, .ok r.2)

/-! ### Association-list map lemmas -/

theorem lookupKey_setKey_self {α : Type} (l : List (String × α)) (k : String)
    (v : α) : lookupKey (setKey l k v) k = some v := by
  induction l with
  | nil => simp [setKey, lookupKey]
  | cons p rest ih =>
    obtain ⟨a, b⟩ := p
    by_cases h : a = k
    · simp [setKey, h, lookupKey]
    · simp [setKey, h, lookupKey, Ne.symm h, ih]

theorem lookupKey_eraseKey_self {α : Type} (l : List (String × α))
    (k : String) : lookupKey (eraseKey l k) k = none := by
  induction l with
  | nil => simp [eraseKey, lookupKey]
  | cons p rest ih =>
    obtain ⟨a, b⟩ := p
    by_cases h : a = k
    · simp [eraseKey, h, ih]
    · simp [eraseKey, h, lookupKey, Ne.symm h, ih]

theorem eraseKey_idem {α : Type} (l : List (String × α)) (k : String) :
    eraseKey (eraseKey l k) k = eraseKey l k := by
  induction l with
  | nil => simp [eraseKey]
  | cons p rest ih =>
    obtain ⟨a, b⟩ := p
    by_cases h : a = k
    · simp [eraseKey, h, ih]
    · simp [eraseKey, h, ih]

theorem mem_eraseKey {α : Type} {l : List (String × α)} {k : String}
    {p : String × α} (hp : p ∈ eraseKey l k) : p ∈ l ∧ p.1 ≠ k := by
  induction l with
  | nil => simp [eraseKey] at hp
  | cons q rest ih =>
    obtain ⟨a, b⟩ := q
    by_cases h : a = k
    · simp only [eraseKey, if_pos h] at hp
      have := ih hp
      exact ⟨List.mem_cons_of_mem _ this.1, this.2⟩
    · simp only [eraseKey, if_neg h] at hp
      rcases List.mem_cons.mp hp with heq | hmem
      · subst heq
        exact ⟨List.mem_cons_self _ _, h⟩
      · have := ih hmem
        exact ⟨List.mem_cons_of_mem _ this.1, this.2⟩

theorem lookupKey_mem {α : Type} {l : List (String × α)} {k : String}
    {v : α} (h : lookupKey l k = some v) : (k, v) ∈ l := by
  induction l with
  | nil => simp [lookupKey] at h
  | cons q rest ih =>
    obtain ⟨a, b⟩ := q
    by_cases hk : k = a
    · simp only [lookupKey, if_pos hk] at h
      subst hk
      cases h
      exact List.mem_cons_self _ _
    · simp only [lookupKey, if_neg hk] at h
      exact List.mem_cons_of_mem _ (ih h)

/-! ### C1 — registry register/get/getSource and the duplicate criterion -/

/-- A concrete well-formed tool used in counterexamples and witnesses. -/
def toolEcho : Tool :=
  { Name := "echo", Description := "Echo back input", InputSchema := some [] }

/-- The registry state after registering `toolEcho` under source `"S1"`. -/
def regEcho : Registry :=
  { tools := [("echo", toolEcho)], sources := [("echo", "S1")] }

/-- C1 counterexample: the claim says `register` fails with a duplicate
error exactly when the name is owned by a **different** source, but
re-registering `toolEcho` under the **same** source `"S1"` also fails with
the duplicate error, refuting the "exactly when" biconditional. -/
theorem C1_counterexample :
    NewRegistry.RegisterTool toolEcho "S1" = .ok regEcho
    ∧ regEcho.GetToolSource "echo" = some "S1"
    ∧ regEcho.RegisterTool toolEcho "S1" =
        .error "tool echo already registered by source S1" := by
  refine ⟨rfl, rfl, rfl⟩

/-- C1 (amended): for every well-formed tool `T` (non-empty name, non-nil
schema) and source `S`, if `T.Name` is unregistered then `register(T,S)`
succeeds, `get(T.Name)` returns `T` unchanged and `getSource(T.Name)`
returns `S`; any subsequent register of a well-formed tool with the same
name — under **any** source, the original or a different one — fails with
the duplicate error naming the original owner and leaves the definition and
owner unchanged; and `register` fails exactly when the name is already
registered (by any source). -/
theorem C1_register_roundtrip_and_duplicate :
    ∀ (r : Registry) (t : Tool) (s : String),
      t.Name ≠ "" → t.InputSchema ≠ none →
      ((r.GetToolSource t.Name = none →
          ∃ r1, r.RegisterTool t s = .ok r1
            ∧ r1.GetTool t.Name = some t
            ∧ r1.GetToolSource t.Name = some s
            ∧ ∀ (t2 : Tool) (s2 : String),
                t2.Name = t.Name → t2.InputSchema ≠ none →
                r1.RegisterTool t2 s2 =
                  .error ("tool " ++ t.Name ++
                          " already registered by source " ++ s)
                ∧ r1.GetTool t.Name = some t
                ∧ r1.GetToolSource t.Name = some s)
       ∧ ((∃ e, r.RegisterTool t s = .error e) ↔
            (r.GetToolSource t.Name).isSome = true)) := by
  intro r t s hname hschema
  obtain ⟨sch, hsch⟩ := Option.ne_none_iff_exists.mp hschema
  constructor
  · intro hfresh
    have hfresh' : lookupKey r.sources t.Name = none := hfresh
    refine ⟨{ tools := setKey r.tools t.Name t,
              sources := setKey r.sources t.Name s }, ?_, ?_, ?_, ?_⟩
    · simp [Registry.RegisterTool, hname, ← hsch, hfresh']
    · simp [Registry.GetTool, lookupKey_setKey_self]
    · simp [Registry.GetToolSource, lookupKey_setKey_self]
    · intro t2 s2 hn2 hs2
      obtain ⟨sch2, hsch2⟩ := Option.ne_none_iff_exists.mp hs2
      have hn2' : t2.Name ≠ "" := by rw [hn2]; exact hname
      refine ⟨?_, ?_, ?_⟩
      · simp [Registry.RegisterTool, hn2, hname, ← hsch2, lookupKey_setKey_self]
      · simp [Registry.GetTool, lookupKey_setKey_self]
      · simp [Registry.GetToolSource, lookupKey_setKey_self]
  · cases hsrc : lookupKey r.sources t.Name with
    | none =>
      constructor
      · rintro ⟨e, he⟩
        simp [Registry.RegisterTool, hname, ← hsch, hsrc] at he
      · intro habs
        simp [Registry.GetToolSource, hsrc] at habs
    | some es =>
      constructor
      · intro _
        simp [Registry.GetToolSource, hsrc]
      · intro _
        exact ⟨"tool " ++ t.Name ++ " already registered by source " ++ es,
               by simp [Registry.RegisterTool, hname, ← hsch, hsrc]⟩

/-- Witness for C1: instantiated at `toolEcho`, source `"S1"`, on the empty
registry. -/
theorem C1_register_witness :
    toolEcho.Name ≠ "" ∧ toolEcho.InputSchema ≠ none ∧
    (NewRegistry.GetToolSource toolEcho.Name = none →
      ∃ r1, NewRegistry.RegisterTool toolEcho "S1" = .ok r1
        ∧ r1.GetTool toolEcho.Name = some toolEcho
        ∧ r1.GetToolSource toolEcho.Name = some "S1"
        ∧ ∀ (t2 : Tool) (s2 : String),
            t2.Name = toolEcho.Name → t2.InputSchema ≠ none →
            t2.Name ≠ "" →
            r1.RegisterTool t2 s2 =
              .error ("tool " ++ toolEcho.Name ++
                      " already registered by source " ++ "S1")
            ∧ r1.GetTool toolEcho.Name = some toolEcho
            ∧ r1.GetToolSource toolEcho.Name = some "S1") := by
  refine ⟨by simp [toolEcho], by simp [toolEcho], ?_⟩
  intro hfresh
  obtain ⟨r1, h1, h2, h3, h4⟩ :=
    (C1_register_roundtrip_and_duplicate NewRegistry toolEcho "S1"
      (by simp [toolEcho]) (by simp [toolEcho])).1 hfresh
  exact ⟨r1, h1, h2, h3, fun t2 s2 hn2 hs2 _ => h4 t2 s2 hn2 hs2⟩

/-! ### C8 — unregister is idempotent -/

/-- C8: `unregister(name)` never errors (it is a total operation returning
no error in the code), is idempotent — a second call leaves the registry
exactly as the first did — and afterwards the name is absent from `get`,
`getSource` and `list()` (the latter for registries whose map keys equal
the stored tools' names, which every sequence of `register` calls
maintains). -/
theorem C8_unregister_idempotent :
    ∀ (r : Registry) (name : String),
      (∀ p, p ∈ r.tools → (Prod.snd p).Name = p.1) →
      ((r.UnregisterTool name).UnregisterTool name = r.UnregisterTool name
       ∧ (r.UnregisterTool name).GetTool name = none
       ∧ (r.UnregisterTool name).GetToolSource name = none
       ∧ ∀ t, t ∈ (r.UnregisterTool name).ListTools → t.Name ≠ name) := by
  intro r name hk
  refine ⟨?_, ?_, ?_, ?_⟩
  · simp [Registry.UnregisterTool, eraseKey_idem]
  · simp [Registry.UnregisterTool, Registry.GetTool, lookupKey_eraseKey_self]
  · simp [Registry.UnregisterTool, Registry.GetToolSource,
          lookupKey_eraseKey_self]
  · intro t ht
    simp only [Registry.UnregisterTool, Registry.ListTools, List.mem_map] at ht
    obtain ⟨p, hp, hpt⟩ := ht
    obtain ⟨hmem, hne⟩ := mem_eraseKey hp
    rw [← hpt]
    rw [hk p hmem]
    exact hne

/-- Witness for C8: unregistering `"echo"` (and equally a never-registered
name, via the same theorem on `NewRegistry`) from the concrete registry
`regEcho`. -/
theorem C8_unregister_witness :
    ((regEcho.UnregisterTool "echo").UnregisterTool "echo" =
        regEcho.UnregisterTool "echo"
     ∧ (regEcho.UnregisterTool "echo").GetTool "echo" = none
     ∧ (regEcho.UnregisterTool "echo").GetToolSource "echo" = none
     ∧ ∀ t, t ∈ (regEcho.UnregisterTool "echo").ListTools →
         t.Name ≠ "echo") :=
  C8_unregister_idempotent regEcho "echo"
    (by intro p hp; simp [regEcho] at hp; simp [hp, toolEcho])

/-! ### C4 — schema validation in execute -/

theorem strAppend3 (a b ab c : String) (h : a ++ b = ab) :
    a ++ (b ++ c) = ab ++ c := by
  rw [← String.append_assoc, h]

theorem validateProps_ok (props : List (String × GoVal)) :
    ∀ args : List (String × GoVal),
      (∀ p, p ∈ props → ∃ ps, Prod.snd p = GoVal.obj ps) →
      (∀ n v, (n, v) ∈ args → ∀ ps, lookupKey props n = some (.obj ps) →
          ValidateType ps v = .ok ()) →
      validateProps props args = some (.ok ()) := by
  intro args
  induction args with
  | nil => intro _ _; rfl
  | cons p rest ih =>
    obtain ⟨n, v⟩ := p
    intro hobj hok
    cases hl : lookupKey props n with
    | none =>
      simp only [validateProps, hl]
      exact ih hobj (fun n2 v2 hm => hok n2 v2 (List.mem_cons_of_mem _ hm))
    | some x =>
      obtain ⟨ps, hps⟩ := hobj _ (lookupKey_mem hl)
      simp only at hps
      subst hps
      have hv : ValidateType ps v = .ok () :=
        hok n v (List.mem_cons_self _ _) ps hl
      simp only [validateProps, hl, hv]
      exact ih hobj (fun n2 v2 hm => hok n2 v2 (List.mem_cons_of_mem _ hm))

theorem validateProps_err (props : List (String × GoVal)) :
    ∀ args : List (String × GoVal),
      (∀ p, p ∈ props → ∃ ps, Prod.snd p = GoVal.obj ps) →
      (∃ n v ps e, (n, v) ∈ args ∧ lookupKey props n = some (.obj ps)
          ∧ ValidateType ps v = .error e) →
      ∃ n0 v0 ps0 e0, (n0, v0) ∈ args
        ∧ lookupKey props n0 = some (.obj ps0)
        ∧ ValidateType ps0 v0 = .error e0
        ∧ validateProps props args =
            some (.error ("invalid argument " ++ n0 ++ ": " ++ e0)) := by
  intro args
  induction args with
  | nil =>
    rintro _ ⟨n, v, ps, e, hm, _, _⟩
    simp at hm
  | cons p rest ih =>
    obtain ⟨n, v⟩ := p
    rintro hobj ⟨n1, v1, ps1, e1, hm1, hl1, hv1⟩
    cases hl : lookupKey props n with
    | none =>
      have hm1' : (n1, v1) ∈ rest := by
        rcases List.mem_cons.mp hm1 with heq | hmem
        · exfalso
          cases heq
          rw [hl1] at hl
          cases hl
        · exact hmem
      obtain ⟨n0, v0, ps0, e0, hm0, hl0, hv0, hres⟩ :=
        ih hobj ⟨n1, v1, ps1, e1, hm1', hl1, hv1⟩
      exact ⟨n0, v0, ps0, e0, List.mem_cons_of_mem _ hm0, hl0, hv0,
             by simp only [validateProps, hl]; exact hres⟩
    | some x =>
      obtain ⟨ps, hps⟩ := hobj _ (lookupKey_mem hl)
      simp only at hps
      subst hps
      cases hv : ValidateType ps v with
      | error e =>
        exact ⟨n, v, ps, e, List.mem_cons_self _ _, hl, hv,
               by simp only [validateProps, hl, hv]⟩
      | ok u =>
        have hm1' : (n1, v1) ∈ rest := by
          rcases List.mem_cons.mp hm1 with heq | hmem
          · exfalso
            cases heq
            rw [hl1] at hl
            cases hl
            rw [hv1] at hv
            cases hv
          · exact hmem
        obtain ⟨n0, v0, ps0, e0, hm0, hl0, hv0, hres⟩ :=
          ih hobj ⟨n1, v1, ps1, e1, hm1', hl1, hv1⟩
        exact ⟨n0, v0, ps0, e0, List.mem_cons_of_mem _ hm0, hl0, hv0,
               by simp only [validateProps, hl, hv]; exact hres⟩

/-- The numeric-`a` tool of the claim's concrete example. -/
def numTool : Tool :=
  { Name := "calc", Description := "",
    InputSchema := some
      [("type", .strVal "object"),
       ("properties", .obj [("a", .obj [("type", .strVal "number")])]),
       ("required", .strs ["a"])] }

/-- A registry holding only `numTool`, owned by source `"S"`. -/
def regNum : Registry :=
  { tools := [("calc", numTool)], sources := [("calc", "S")] }

/-- The same tool with its schema in JSON-decoded form: `required` is a
`[]interface\x7b\x7d` (`GoVal.arr`) rather than a `[]string` — the shape every
peer-imported schema has after `encoding/json` decoding. -/
def numToolJSON : Tool :=
  { Name := "calcJSON", Description := "",
    InputSchema := some
      [("type", .strVal "object"),
       ("properties", .obj [("a", .obj [("type", .strVal "number")])]),
       ("required", .arr [.strVal "a"])] }

/-- A registry holding only `numToolJSON`, owned by source `"S"`. -/
def regNumJSON : Registry :=
  { tools := [("calcJSON", numToolJSON)], sources := [("calcJSON", "S")] }

/-- C4 counterexample: the claim says `execute(call)` first checks presence
of every required field, but for `numToolJSON` — whose schema lists `a` as
required in the JSON-decoded `[]interface\x7b\x7d` form — the `[]string`
assertion at types.go:181 fails, required-presence checking is silently
skipped, and a call omitting the required field `a` is accepted. -/
theorem C4_counterexample :
    lookupKey (numToolJSON.InputSchema.getD []) "required" =
      some (.arr [.strVal "a"])
    ∧ lookupKey [("b", GoVal.intVal 3)] "a" = none
    ∧ regNumJSON.ExecuteTool
        { Name := "calcJSON", Arguments := [("b", .intVal 3)] } =
        some (.ok { content := [Content.text "text" "Tool execution result"],
                    isError := false }) := by
  refine ⟨rfl, rfl, rfl⟩

/-- C4 (amended): `execute(call)` resolves the tool; for a tool whose
schema has object-typed `properties`, validation depends on the dynamic
type of the schema's `required` entry.  When it is a Go `[]string` (a
schema constructed in code), presence of every required field is checked
first — failing with an error naming the (first) missing field — and then
each supplied argument's primitive type is checked against its property
schema, succeeding exactly when every check passes and otherwise failing
with an error naming an offending argument; in particular the tool
requiring numeric `a` rejects `\x7ba:"x", b:3\x7d` with an error naming `a`
and accepts `\x7ba:5, b:3\x7d`.  But when `required` is a JSON-decoded
array (`[]interface\x7b\x7d`, the form of every peer-imported schema), the
failed `[]string` assertion silently skips required-presence checking and
only per-property type checking runs, so a call omitting a required field
is accepted whenever its supplied arguments type-check. -/
theorem C4_execute_validates_amended :
    ∀ (t : Tool) (schema props args : List (String × GoVal)),
      t.InputSchema = some schema →
      lookupKey schema "properties" = some (.obj props) →
      (∀ p, p ∈ props → ∃ ps, Prod.snd p = GoVal.obj ps) →
      ((∀ (r : Registry) (call : ToolCall) (t2 : Tool),
          lookupKey r.tools call.Name = some t2 →
          r.ExecuteTool call = t2.ValidateAndExecute call.Arguments)
       ∧ (∀ req : List String, lookupKey schema "required" = some (.strs req) →
          ((∀ f, findMissing args req = some f →
              f ∈ req ∧ lookupKey args f = none
              ∧ t.ValidateAndExecute args =
                  some (.error ("invalid arguments: missing required field: " ++ f)))
           ∧ (findMissing args req = none →
              (∀ n v, (n, v) ∈ args → ∀ ps, lookupKey props n = some (.obj ps) →
                  ValidateType ps v = .ok ()) →
              t.ValidateAndExecute args =
                some (.ok { content := [Content.text "text" "Tool execution result"],
                            isError := false }))
           ∧ (findMissing args req = none →
              (∃ n v ps e, (n, v) ∈ args ∧ lookupKey props n = some (.obj ps)
                  ∧ ValidateType ps v = .error e) →
              ∃ n0 v0 ps0 e0, (n0, v0) ∈ args
                ∧ lookupKey props n0 = some (.obj ps0)
                ∧ ValidateType ps0 v0 = .error e0
                ∧ t.ValidateAndExecute args =
                    some (.error ("invalid arguments: invalid argument " ++ n0 ++
                                  ": " ++ e0)))))
       ∧ (∀ xs : List GoVal, lookupKey schema "required" = some (.arr xs) →
          (((∀ n v, (n, v) ∈ args → ∀ ps, lookupKey props n = some (.obj ps) →
                ValidateType ps v = .ok ()) →
             t.ValidateAndExecute args =
               some (.ok { content := [Content.text "text" "Tool execution result"],
                           isError := false }))
           ∧ ((∃ n v ps e, (n, v) ∈ args ∧ lookupKey props n = some (.obj ps)
                  ∧ ValidateType ps v = .error e) →
              ∃ n0 v0 ps0 e0, (n0, v0) ∈ args
                ∧ lookupKey props n0 = some (.obj ps0)
                ∧ ValidateType ps0 v0 = .error e0
                ∧ t.ValidateAndExecute args =
                    some (.error ("invalid arguments: invalid argument " ++ n0 ++
                                  ": " ++ e0)))))
       ∧ regNum.ExecuteTool
           { Name := "calc", Arguments := [("a", .strVal "x"), ("b", .intVal 3)] } =
           some (.error
             "invalid arguments: invalid argument a: expected number, got string")
       ∧ regNum.ExecuteTool
           { Name := "calc", Arguments := [("a", .intVal 5), ("b", .intVal 3)] } =
           some (.ok { content := [Content.text "text" "Tool execution result"],
                       isError := false })
       ∧ regNumJSON.ExecuteTool
           { Name := "calcJSON", Arguments := [("b", .intVal 3)] } =
           some (.ok { content := [Content.text "text" "Tool execution result"],
                       isError := false })) := by
  intro t schema props args hsch hprops hobj
  refine ⟨?_, ?_, ?_, rfl, rfl, rfl⟩
  · intro r call t2 hl
    simp [Registry.ExecuteTool, hl]
  · intro req hreq
    refine ⟨?_, ?_, ?_⟩
    · intro f hf
      have hmem : f ∈ req := List.mem_of_find?_eq_some hf
      have hnone : lookupKey args f = none := by
        have := List.find?_some hf
        simpa using this
      refine ⟨hmem, hnone, ?_⟩
      simp [Tool.ValidateAndExecute, Tool.ValidateArguments, hsch, hreq, hf,
            strAppend3 "invalid arguments: " "missing required field: "
              "invalid arguments: missing required field: " f rfl]
    · intro hnomiss hallok
      have hvp := validateProps_ok props args hobj hallok
      simp [Tool.ValidateAndExecute, Tool.ValidateArguments, hsch, hreq,
            hnomiss, hprops, hvp]
    · intro hnomiss hbad
      obtain ⟨n0, v0, ps0, e0, hm0, hl0, hv0, hres⟩ :=
        validateProps_err props args hobj hbad
      refine ⟨n0, v0, ps0, e0, hm0, hl0, hv0, ?_⟩
      simp only [Tool.ValidateAndExecute, Tool.ValidateArguments, hsch,
                 Option.getD_some, hreq, hnomiss, hprops, hres]
      simp only [← String.append_assoc]
      rfl
  · intro xs hreq
    constructor
    · intro hallok
      have hvp := validateProps_ok props args hobj hallok
      simp [Tool.ValidateAndExecute, Tool.ValidateArguments, hsch, hreq,
            hprops, hvp]
    · intro hbad
      obtain ⟨n0, v0, ps0, e0, hm0, hl0, hv0, hres⟩ :=
        validateProps_err props args hobj hbad
      refine ⟨n0, v0, ps0, e0, hm0, hl0, hv0, ?_⟩
      simp only [Tool.ValidateAndExecute, Tool.ValidateArguments, hsch,
                 Option.getD_some, hreq, hprops, hres]
      simp only [← String.append_assoc]
      rfl

/-- Witness for C4: instantiated at `numTool` (code-constructed `[]string`
required list) and at `numToolJSON` (JSON-decoded required list) with the
claim's concrete argument maps. -/
theorem C4_execute_amended_witness :
    (numTool.ValidateAndExecute [("a", .strVal "x"), ("b", .intVal 3)] =
       some (.error
         "invalid arguments: invalid argument a: expected number, got string"))
    ∧ (numTool.ValidateAndExecute [("a", .intVal 5), ("b", .intVal 3)] =
       some (.ok { content := [Content.text "text" "Tool execution result"],
                   isError := false }))
    ∧ (numTool.ValidateAndExecute [("b", .intVal 3)] =
       some (.error "invalid arguments: missing required field: a"))
    ∧ (numToolJSON.ValidateAndExecute [("b", .intVal 3)] =
       some (.ok { content := [Content.text "text" "Tool execution result"],
                   isError := false })) := by
  have hprops : ∀ p, p ∈ [("a", GoVal.obj [("type", GoVal.strVal "number")])] →
      ∃ ps, Prod.snd p = GoVal.obj ps := by
    rintro p hp
    simp at hp
    exact ⟨[("type", GoVal.strVal "number")], by simp [hp]⟩
  have hmiss := ((C4_execute_validates_amended numTool
    [("type", .strVal "object"),
     ("properties", .obj [("a", .obj [("type", .strVal "number")])]),
     ("required", .strs ["a"])]
    [("a", .obj [("type", .strVal "number")])]
    [("b", .intVal 3)] rfl rfl hprops).2.1 ["a"] rfl).1
  have hok2 := ((C4_execute_validates_amended numTool
    [("type", .strVal "object"),
     ("properties", .obj [("a", .obj [("type", .strVal "number")])]),
     ("required", .strs ["a"])]
    [("a", .obj [("type", .strVal "number")])]
    [("a", .intVal 5), ("b", .intVal 3)] rfl rfl hprops).2.1 ["a"] rfl).2.1
  have hskip := ((C4_execute_validates_amended numToolJSON
    [("type", .strVal "object"),
     ("properties", .obj [("a", .obj [("type", .strVal "number")])]),
     ("required", .arr [.strVal "a"])]
    [("a", .obj [("type", .strVal "number")])]
    [("b", .intVal 3)] rfl rfl hprops).2.2.1 [.strVal "a"] rfl).1
  refine ⟨rfl, ?_, (hmiss "a" rfl).2.2, ?_⟩
  · refine hok2 rfl ?_
    rintro n v hm ps hl
    rcases List.mem_cons.mp hm with heq | hm2
    · injection heq with h1 h2
      subst h1
      subst h2
      simp [lookupKey] at hl
      subst hl
      rfl
    · simp at hm2
      obtain ⟨h1, h2⟩ := hm2
      subst h1
      simp [lookupKey] at hl
  · refine hskip ?_
    rintro n v hm ps hl
    simp at hm
    obtain ⟨h1, h2⟩ := hm
    subst h1
    simp [lookupKey] at hl

/-! ### C5 — DiscoverTools aggregates running peers and skips the rest -/

theorem discoverLoop_lookup_notmem (l : List (String × Server)) (nm : String)
    (h : nm ∉ l.map Prod.fst) : lookupKey (discoverLoop l).2 nm = none := by
  induction l with
  | nil => rfl
  | cons p rest ih =>
    obtain ⟨a, s0⟩ := p
    simp only [List.map_cons, List.mem_cons] at h
    push_neg at h
    obtain ⟨hne, hrest⟩ := h
    have ihr := ih hrest
    cases hc : s0.Client with
    | none => simpa [discoverLoop, hc, lookupKey, hne] using ihr
    | some c =>
      by_cases hconn : c.connected
      · cases hres : c.listToolsResult with
        | ok ts => simpa [discoverLoop, hc, hconn, hres, lookupKey, hne] using ihr
        | error e => simpa [discoverLoop, hc, hconn, hres, lookupKey, hne] using ihr
      · simpa [discoverLoop, hc, hconn, lookupKey, hne] using ihr

theorem discoverLoop_lookup_mem (l : List (String × Server))
    (hnd : (l.map Prod.fst).Nodup) (nm : String) (server : Server)
    (hm : (nm, server) ∈ l) :
    lookupKey (discoverLoop l).2 nm =
      (match server.Client with
       | some c =>
         if c.connected then
           match c.listToolsResult with
           | .ok ts => some ts
           | .error _ => none
         else none
       | none => none) := by
  induction l with
  | nil => simp at hm
  | cons p rest ih =>
    obtain ⟨a, s0⟩ := p
    simp only [List.map_cons, List.nodup_cons] at hnd
    obtain ⟨hna, hndr⟩ := hnd
    rcases List.mem_cons.mp hm with heq | hmem
    · injection heq with h1 h2
      subst h1
      subst h2
      have hnone := discoverLoop_lookup_notmem rest nm hna
      cases hc : server.Client with
      | none => simpa [discoverLoop, hc, lookupKey] using hnone
      | some c =>
        by_cases hconn : c.connected
        · cases hres : c.listToolsResult with
          | ok ts => simp [discoverLoop, hc, hconn, hres, lookupKey]
          | error e => simpa [discoverLoop, hc, hconn, hres, lookupKey] using hnone
        · simpa [discoverLoop, hc, hconn, lookupKey] using hnone
    · have hne : nm ≠ a := by
        intro hcontra
        subst hcontra
        exact hna (List.mem_map.mpr ⟨(nm, server), hmem, rfl⟩)
      have ihr := ih hndr hmem
      cases hc : s0.Client with
      | none => simpa [discoverLoop, hc, lookupKey, hne] using ihr
      | some c =>
        by_cases hconn : c.connected
        · cases hres : c.listToolsResult with
          | ok ts => simpa [discoverLoop, hc, hconn, hres, lookupKey, hne] using ihr
          | error e => simpa [discoverLoop, hc, hconn, hres, lookupKey, hne] using ihr
        · simpa [discoverLoop, hc, hconn, lookupKey, hne] using ihr

/-- C5: `DiscoverTools` fails with the NoPeers error exactly when the
manager holds no peers; otherwise it returns a map that, for every peer
whose client is connected and whose list call succeeds, holds exactly that
peer's advertised tools under the peer's name; it silently skips every peer
that is not running or whose list call errors (no entry is created and no
failure is raised); the map mentions no name outside the peer set; and on a
manager with exactly two connected, successfully-listing peers the map is
exactly the two-entry map of their tools. -/
theorem C5_discoverTools :
    ∀ m : Manager,
      (m.servers.map Prod.fst).Nodup →
      ((m.servers = [] →
          (m.DiscoverTools).2 = .error "no servers available")
       ∧ (m.servers ≠ [] →
          ∃ res, (m.DiscoverTools).2 = .ok res
            ∧ (∀ nm server c ts, (nm, server) ∈ m.servers →
                 server.Client = some c → c.connected = true →
                 c.listToolsResult = .ok ts → lookupKey res nm = some ts)
            ∧ (∀ nm server, (nm, server) ∈ m.servers →
                 (server.IsRunning = false ∨
                  ∃ c e, server.Client = some c ∧ c.listToolsResult = .error e) →
                 lookupKey res nm = none)
            ∧ (∀ nm, nm ∉ m.servers.map Prod.fst → lookupKey res nm = none)
            ∧ (∀ n1 s1 n2 s2 c1 c2 ts1 ts2,
                 m.servers = [(n1, s1), (n2, s2)] →
                 s1.Client = some c1 → c1.connected = true →
                 c1.listToolsResult = .ok ts1 →
                 s2.Client = some c2 → c2.connected = true →
                 c2.listToolsResult = .ok ts2 →
                 res = [(n1, ts1), (n2, ts2)]))) := by
  intro m hnd
  constructor
  · intro hempty
    simp [Manager.DiscoverTools, hempty]
  · intro hne
    have hie : m.servers.isEmpty = false := by
      cases hm : m.servers with
      | nil => exact absurd hm hne
      | cons p rest => rfl
    refine ⟨(discoverLoop m.servers).2, by simp [Manager.DiscoverTools, hie],
            ?_, ?_, ?_, ?_⟩
    · intro nm server c ts hm hc hconn hres
      rw [discoverLoop_lookup_mem m.servers hnd nm server hm]
      simp [hc, hconn, hres]
    · intro nm server hm hskip
      rw [discoverLoop_lookup_mem m.servers hnd nm server hm]
      rcases hskip with hnr | ⟨c, e, hc, herr⟩
      · cases hc : server.Client with
        | none => simp
        | some c =>
          simp only [Server.IsRunning, hc] at hnr
          simp [hnr]
      · by_cases hconn : c.connected
        · simp [hc, hconn, herr]
        · simp [hc, hconn]
    · intro nm hnm
      exact discoverLoop_lookup_notmem m.servers nm hnm
    · intro n1 s1 n2 s2 c1 c2 ts1 ts2 hm hc1 hconn1 hres1 hc2 hconn2 hres2
      simp [hm, discoverLoop, hc1, hconn1, hres1, hc2, hconn2, hres2]

/-- A connected peer client advertising `toolEcho`, used in witnesses. -/
def cliEcho : MCPClientBehavior :=
  { connected := true, listToolsResult := .ok [toolEcho], disconnectErr := none }

/-- A two-peer manager whose peers are both connected and list
successfully. -/
def mgrTwo : Manager :=
  { servers := [("s1", { Name := "s1", Client := some cliEcho, Tools := [] }),
                ("s2", { Name := "s2", Client := some cliEcho, Tools := [] })] }

/-- Witness for C5: on the concrete two-peer manager `mgrTwo` the result is
exactly the two-entry map. -/
theorem C5_discoverTools_witness :
    ∃ res, (mgrTwo.DiscoverTools).2 = .ok res
      ∧ res = [("s1", [toolEcho]), ("s2", [toolEcho])] := by
  have h := (C5_discoverTools mgrTwo (by simp [mgrTwo])).2 (by simp [mgrTwo])
  obtain ⟨res, hres, _, _, _, htwo⟩ := h
  exact ⟨res, hres, htwo "s1" _ "s2" _ cliEcho cliEcho [toolEcho] [toolEcho]
    rfl rfl rfl rfl rfl rfl rfl⟩

/-! ### C6 — ShutdownAll is best-effort and reports the last failure -/

/-- `server.ListServers`. -/
def Manager.ListServers (m : Manager) : List String :=
  m.servers.map Prod.fst

/-- The error message `ShutdownAll` records for one entry: the disconnect
failure of its client, when there is one. -/
def failMsg (p : String × Server) : Option String :=
  match p.2.Client with
  | some c =>
    match c.disconnectErr with
    | some e => some ("failed to disconnect from server " ++ p.1 ++ ": " ++ e)
    | none => none
  | none => none

/-- The last disconnect failure message over a list of entries. -/
def lastFailMsg : List (String × Server) → Option String
  | [] => none
  | p :: rest =>
    match lastFailMsg rest with
    | some e => some e
    | none => failMsg p

theorem shutdown_foldl_err (l : List (String × Server)) :
    ∀ acc : Option String × List String,
      (l.foldl shutdownStep acc).1 =
        (match lastFailMsg l with
         | some e => some e
         | none => acc.1) := by
  induction l with
  | nil => intro acc; rfl
  | cons p rest ih =>
    intro acc
    rw [List.foldl_cons, ih]
    cases hlf : lastFailMsg rest with
    | some e => simp [lastFailMsg, hlf]
    | none =>
      obtain ⟨a, s0⟩ := p
      cases hc : s0.Client with
      | none => simp [lastFailMsg, hlf, failMsg, shutdownStep, hc]
      | some c =>
        cases hd : c.disconnectErr with
        | some e => simp [lastFailMsg, hlf, failMsg, shutdownStep, hc, hd]
        | none => simp [lastFailMsg, hlf, failMsg, shutdownStep, hc, hd]

theorem shutdown_foldl_trace (l : List (String × Server)) :
    ∀ acc : Option String × List String,
      (l.foldl shutdownStep acc).2 =
        acc.2 ++ (l.filter (fun p => (Prod.snd p).Client.isSome)).map Prod.fst := by
  induction l with
  | nil => intro acc; simp
  | cons p rest ih =>
    intro acc
    rw [List.foldl_cons, ih]
    obtain ⟨a, s0⟩ := p
    cases hc : s0.Client with
    | none => simp [shutdownStep, hc]
    | some c =>
      cases hd : c.disconnectErr with
      | some e => simp [shutdownStep, hc, hd]
      | none => simp [shutdownStep, hc, hd]

theorem lastFailMsg_none (l : List (String × Server))
    (h : ∀ p, p ∈ l → failMsg p = none) : lastFailMsg l = none := by
  induction l with
  | nil => rfl
  | cons p rest ih =>
    have hr := ih (fun q hq => h q (List.mem_cons_of_mem _ hq))
    simp [lastFailMsg, hr, h p (List.mem_cons_self _ _)]

theorem lastFailMsg_append_some (pre l : List (String × Server)) (e : String)
    (h : lastFailMsg l = some e) : lastFailMsg (pre ++ l) = some e := by
  induction pre with
  | nil => simpa using h
  | cons p rest ih => simp [lastFailMsg, ih]

/-- C6: for a manager in which exactly one peer's disconnect fails,
`ShutdownAll` still invokes disconnect on every client-bearing peer
(continuing past the failure), empties the peer set — a subsequent listing
of peers is empty — and returns that failure; and in general the error it
returns is the last disconnect failure encountered in iteration order. -/
theorem C6_shutdownAll :
    ∀ (m : Manager) (pre post : List (String × Server)) (name : String)
      (server : Server) (c : MCPClientBehavior) (e : String),
      m.servers = pre ++ (name, server) :: post →
      server.Client = some c → c.disconnectErr = some e →
      (∀ p, p ∈ pre ++ post → ∀ c2,
          (Prod.snd p).Client = some c2 → c2.disconnectErr = none) →
      ((m.ShutdownAll).1.servers = []
       ∧ (m.ShutdownAll).1.ListServers = []
       ∧ (m.ShutdownAll).2.2 =
           (m.servers.filter (fun p => (Prod.snd p).Client.isSome)).map Prod.fst
       ∧ (m.ShutdownAll).2.1 =
           some ("failed to disconnect from server " ++ name ++ ": " ++ e)
       ∧ ∀ m2 : Manager, (m2.ShutdownAll).2.1 = lastFailMsg m2.servers) := by
  intro m pre post name server c e hm hc hd hothers
  have hgen : ∀ m2 : Manager, (m2.ShutdownAll).2.1 = lastFailMsg m2.servers := by
    intro m2
    show (m2.servers.foldl shutdownStep (none, [])).1 = _
    rw [shutdown_foldl_err]
    cases lastFailMsg m2.servers with
    | some e2 => rfl
    | none => rfl
  refine ⟨rfl, rfl, ?_, ?_, hgen⟩
  · show (m.servers.foldl shutdownStep (none, [])).2 = _
    rw [shutdown_foldl_trace]
    simp
  · rw [hgen m, hm]
    have hpostnone : lastFailMsg post = none :=
      lastFailMsg_none post (by
        intro p hp
        have hall := hothers p (List.mem_append.mpr (Or.inr hp))
        cases hc2 : (Prod.snd p).Client with
        | none => simp [failMsg, hc2]
        | some c2 => simp [failMsg, hc2, hall c2 hc2])
    have hmid : lastFailMsg ((name, server) :: post) = some
        ("failed to disconnect from server " ++ name ++ ": " ++ e) := by
      simp [lastFailMsg, hpostnone, failMsg, hc, hd]
    exact lastFailMsg_append_some pre _ _ hmid

/-- A peer client whose disconnect fails with `"boom"`. -/
def cliBoom : MCPClientBehavior :=
  { connected := true, listToolsResult := .ok [], disconnectErr := some "boom" }

/-- A two-peer manager in which exactly the second peer's disconnect
fails. -/
def mgrBoom2 : Manager :=
  { servers := [("s1", { Name := "s1", Client := some cliEcho, Tools := [] }),
                ("s2", { Name := "s2", Client := some cliBoom, Tools := [] })] }

/-- Witness for C6: on `mgrBoom2`, `ShutdownAll` empties the peer set,
disconnects both peers and returns the `"s2"` failure. -/
theorem C6_shutdownAll_witness :
    (mgrBoom2.ShutdownAll).1.servers = []
    ∧ (mgrBoom2.ShutdownAll).1.ListServers = []
    ∧ (mgrBoom2.ShutdownAll).2.2 =
        (mgrBoom2.servers.filter (fun p => (Prod.snd p).Client.isSome)).map Prod.fst
    ∧ (mgrBoom2.ShutdownAll).2.1 =
        some ("failed to disconnect from server " ++ "s2" ++ ": " ++ "boom") := by
  have h := C6_shutdownAll mgrBoom2
    [("s1", { Name := "s1", Client := some cliEcho, Tools := [] })] []
    "s2" { Name := "s2", Client := some cliBoom, Tools := [] } cliBoom "boom"
    rfl rfl rfl
    (by rintro p hp c2 hc2
        simp at hp
        subst hp
        have h2 : cliEcho = c2 := Option.some.inj hc2
        rw [← h2]
        rfl)
  exact ⟨h.1, h.2.1, h.2.2.1, h.2.2.2.1⟩

/-! ### C7 — shutdown(name) under a failing disconnect -/

/-- A one-peer manager whose single peer's disconnect fails. -/
def mgrBoom : Manager :=
  { servers := [("srv", { Name := "srv", Client := some cliBoom, Tools := [] })] }

/-- C7 counterexample: the claim says the handle is removed even when the
disconnect errors, but on `mgrBoom` the failing shutdown returns the
disconnect error and the subsequent lookup still succeeds (the entry was
not removed: the error return precedes the delete, part_000:530-535). -/
theorem C7_counterexample :
    (mgrBoom.ShutdownServer "srv").2 =
      .error "failed to disconnect from server: boom"
    ∧ ((mgrBoom.ShutdownServer "srv").1).GetServer "srv" =
        .ok { Name := "srv",
              Client := some { connected := false, listToolsResult := .ok [],
                               disconnectErr := some "boom" },
              Tools := [] } := by
  exact ⟨rfl, rfl⟩

/-- C7 (amended): `shutdown(name)` fails with NotFound when no peer of that
name exists; otherwise it disconnects the peer's client; when the
disconnect succeeds (or there is no client) the handle is removed and a
subsequent lookup fails with NotFound; but when the disconnect itself
returns an error, `shutdown` returns that error and the handle remains
registered, so a subsequent lookup still succeeds. -/
theorem C7_shutdownServer :
    ∀ (m : Manager) (name : String),
      ((lookupKey m.servers name = none →
          m.ShutdownServer name = (m, .error ("server not found: " ++ name)))
       ∧ (∀ server, lookupKey m.servers name = some server →
            server.Client = none →
            (m.ShutdownServer name).2 = .ok ()
            ∧ ((m.ShutdownServer name).1).GetServer name =
                .error ("server not found: " ++ name))
       ∧ (∀ server c, lookupKey m.servers name = some server →
            server.Client = some c → c.disconnectErr = none →
            (m.ShutdownServer name).2 = .ok ()
            ∧ ((m.ShutdownServer name).1).GetServer name =
                .error ("server not found: " ++ name))
       ∧ (∀ server c e, lookupKey m.servers name = some server →
            server.Client = some c → c.disconnectErr = some e →
            (m.ShutdownServer name).2 =
              .error ("failed to disconnect from server: " ++ e)
            ∧ ((m.ShutdownServer name).1).GetServer name =
                .ok { server with Client := some { c with connected := false } })) := by
  intro m name
  refine ⟨?_, ?_, ?_, ?_⟩
  · intro hnone
    simp [Manager.ShutdownServer, hnone]
  · intro server hs hc
    constructor
    · simp [Manager.ShutdownServer, hs, hc]
    · simp [Manager.ShutdownServer, hs, hc, Manager.GetServer,
            lookupKey_eraseKey_self]
  · intro server c hs hc hd
    constructor
    · simp [Manager.ShutdownServer, hs, hc, MCPClientBehavior.Disconnect, hd]
    · simp [Manager.ShutdownServer, hs, hc, MCPClientBehavior.Disconnect, hd,
            Manager.GetServer, lookupKey_eraseKey_self]
  · intro server c e hs hc hd
    constructor
    · simp [Manager.ShutdownServer, hs, hc, MCPClientBehavior.Disconnect, hd]
    · simp [Manager.ShutdownServer, hs, hc, MCPClientBehavior.Disconnect, hd,
            Manager.GetServer, lookupKey_setKey_self]

/-- Witness for C7: instantiated on `mgrBoom` (failing disconnect) and on
the name `"absent"` (NotFound). -/
theorem C7_shutdownServer_witness :
    (mgrBoom.ShutdownServer "absent" =
      (mgrBoom, .error ("server not found: " ++ "absent")))
    ∧ ((mgrBoom.ShutdownServer "srv").2 =
        .error ("failed to disconnect from server: " ++ "boom")) := by
  refine ⟨(C7_shutdownServer mgrBoom "absent").1 rfl, ?_⟩
  exact ((C7_shutdownServer mgrBoom "srv").2.2.2
    { Name := "srv", Client := some cliBoom, Tools := [] } cliBoom "boom"
    rfl rfl rfl).1

/-! ### C3 — Disconnect: idempotent, but capabilities are not cleared -/

/-- An idle connected transport (nothing queued, nothing sent). -/
def transIdle : Transport :=
  { startErr := none, connected := true, closed := false, closeErr := none,
    sendErr := none, recvQueue := [], sent := [] }

/-- A connected client with cached capabilities. -/
def clientCached : Client :=
  { transport := some transIdle, clientInfo := { Name := "go-mcp", Version := "0.1.0" },
    capabilities := some initialCaps, protocolVersion := "1.0" }

/-- C3 counterexample: the claim says a query of the server capabilities
after `Disconnect` reflects no cached capabilities, but `Disconnect`
(client.go:335-346) never touches the `capabilities` field: on
`clientCached` the disconnect succeeds, the client is disconnected, and
`GetServerCapabilities` still returns the cached record. -/
theorem C3_counterexample :
    (clientCached.Disconnect).2 = .ok ()
    ∧ ((clientCached.Disconnect).1).IsConnected = false
    ∧ ((clientCached.Disconnect).1).GetServerCapabilities = some initialCaps
    ∧ ((clientCached.Disconnect).1).GetServerCapabilities ≠ none := by
  refine ⟨rfl, rfl, rfl, by simp [clientCached, Client.Disconnect, transIdle,
    Transport.IsConnected, Transport.Close, Client.GetServerCapabilities]⟩

/-- C3 (amended): `disconnect()` is idempotent — a second call leaves the
client exactly as the first did and returns no error, and on an
already-disconnected client it succeeds without error and changes
nothing — and it leaves the client disconnected; however it does **not**
clear the cached capability state: `GetServerCapabilities` afterwards
returns exactly what it returned before. -/
theorem C3_disconnect_idempotent :
    ∀ c : Client,
      (((c.Disconnect).1).Disconnect = ((c.Disconnect).1, .ok ())
       ∧ (c.IsConnected = false → c.Disconnect = (c, .ok ()))
       ∧ ((c.Disconnect).1).IsConnected = false
       ∧ ((c.Disconnect).1).GetServerCapabilities = c.GetServerCapabilities) := by
  intro c
  cases hc : c.transport with
  | none =>
    refine ⟨?_, ?_, ?_, ?_⟩ <;>
      simp [Client.Disconnect, hc, Client.IsConnected, Client.GetServerCapabilities]
  | some t =>
    by_cases hconn : t.connected
    · cases hce : t.closeErr with
      | none =>
        refine ⟨?_, ?_, ?_, ?_⟩
        · simp [Client.Disconnect, hc, Transport.IsConnected, hconn,
                Transport.Close, hce]
        · intro hfalse
          simp [Client.IsConnected, hc, Transport.IsConnected, hconn] at hfalse
        · simp [Client.Disconnect, hc, Transport.IsConnected, hconn,
                Transport.Close, hce, Client.IsConnected]
        · simp [Client.Disconnect, hc, Transport.IsConnected, hconn,
                Transport.Close, hce, Client.GetServerCapabilities]
      | some e =>
        refine ⟨?_, ?_, ?_, ?_⟩
        · simp [Client.Disconnect, hc, Transport.IsConnected, hconn,
                Transport.Close, hce]
        · intro hfalse
          simp [Client.IsConnected, hc, Transport.IsConnected, hconn] at hfalse
        · simp [Client.Disconnect, hc, Transport.IsConnected, hconn,
                Transport.Close, hce, Client.IsConnected]
        · simp [Client.Disconnect, hc, Transport.IsConnected, hconn,
                Transport.Close, hce, Client.GetServerCapabilities]
    · refine ⟨?_, ?_, ?_, ?_⟩ <;>
        simp [Client.Disconnect, hc, Transport.IsConnected, hconn,
              Client.IsConnected, Client.GetServerCapabilities]

/-- A client that was never connected but carries cached capabilities. -/
def clientDetached : Client :=
  { transport := none, clientInfo := { Name := "go-mcp", Version := "0.1.0" },
    capabilities := some initialCaps, protocolVersion := "1.0" }

/-- Witness for C3: instantiated on the already-disconnected
`clientDetached`. -/
theorem C3_disconnect_witness :
    clientDetached.IsConnected = false
    ∧ clientDetached.Disconnect = (clientDetached, .ok ())
    ∧ ((clientDetached.Disconnect).1).GetServerCapabilities =
        clientDetached.GetServerCapabilities :=
  ⟨rfl, (C3_disconnect_idempotent clientDetached).2.1 rfl,
   (C3_disconnect_idempotent clientDetached).2.2.2⟩

/-! ### C9 — request-issuing operations fail fast when not connected -/

/-- C9: whenever no transport is attached or the attached transport reports
disconnected, each of `ListTools`, `ListResources`, `CallTool` and
`HealthCheck` fails with the not-connected error and returns the client
completely unchanged — in particular the transport's `sent` log is
untouched, so nothing was sent on the transport. -/
theorem C9_not_connected_fails_fast :
    ∀ c : Client,
      (c.transport = none ∨ ∃ t, c.transport = some t ∧ t.connected = false) →
      (c.ListTools = some (c, .error "client not connected")
       ∧ c.ListResources = (c, .error "client not connected")
       ∧ (∀ name params, c.CallTool name params = (c, .error "client not connected"))
       ∧ c.HealthCheck = (c, .error "client not connected")) := by
  intro c hdis
  rcases hdis with hc | ⟨t, hc, hconn⟩
  · exact ⟨by simp [Client.ListTools, hc],
           by simp [Client.ListResources, hc],
           fun name params => by simp [Client.CallTool, hc],
           by simp [Client.HealthCheck, hc]⟩
  · exact ⟨by simp [Client.ListTools, hc, Transport.IsConnected, hconn],
           by simp [Client.ListResources, hc, Transport.IsConnected, hconn],
           fun name params => by
             simp [Client.CallTool, hc, Transport.IsConnected, hconn],
           by simp [Client.HealthCheck, hc, Transport.IsConnected, hconn]⟩

/-- Witness for C9: a freshly created client (no transport attached). -/
theorem C9_not_connected_witness :
    (NewClient { Name := "go-mcp", Version := "0.1.0" }).ListTools =
      some (NewClient { Name := "go-mcp", Version := "0.1.0" },
            .error "client not connected")
    ∧ (NewClient { Name := "go-mcp", Version := "0.1.0" }).HealthCheck =
        (NewClient { Name := "go-mcp", Version := "0.1.0" },
         .error "client not connected") := by
  have h := C9_not_connected_fails_fast
    (NewClient { Name := "go-mcp", Version := "0.1.0" }) (Or.inl rfl)
  exact ⟨h.1, h.2.2.2⟩

/-! ### C10 — ListTools panics on a tool element without an object
input_schema -/

/-- A connected transport whose queued `list_tools` reply is well-shaped
(`result.tools` is an array) but whose single tool element lacks an
`input_schema` field. -/
def transNoSchema : Transport :=
  { startErr := none, connected := true, closed := false, closeErr := none,
    sendErr := none,
    recvQueue := [.ok { Result := .obj [("tools", .arr [.obj [("name", .strVal "t")]])],
                        Error := none }],
    sent := [] }

/-- The same reply with the element carrying an (empty) object
`input_schema`. -/
def transWithSchema : Transport :=
  { startErr := none, connected := true, closed := false, closeErr := none,
    sendErr := none,
    recvQueue := [.ok { Result := .obj
                          [("tools", .arr [.obj [("name", .strVal "t"),
                                                 ("input_schema", .obj [])]])],
                        Error := none }],
    sent := [] }

/-- A connected client reading the schemaless reply. -/
def clientNoSchema : Client :=
  { transport := some transNoSchema,
    clientInfo := { Name := "go-mcp", Version := "0.1.0" },
    capabilities := none, protocolVersion := "1.0" }

/-- A connected client reading the well-formed reply. -/
def clientWithSchema : Client :=
  { transport := some transWithSchema,
    clientInfo := { Name := "go-mcp", Version := "0.1.0" },
    capabilities := none, protocolVersion := "1.0" }

/-- C10: on a decodable reply whose `tools` array holds an object element
without an object `input_schema`, `ListTools` aborts with a run-time type
failure — the unchecked assertion at client.go:197 — modelled as the panic
value `none`, instead of returning a list or a malformed-response error;
the same reply with an object `input_schema` is parsed normally, so the
panic is precisely the unchecked assertion. -/
theorem C10_listTools_panics :
    clientNoSchema.ListTools = none
    ∧ (∃ c2, clientWithSchema.ListTools =
        some (c2, .ok [{ Name := "t", Description := "",
                         InputSchema := some [] }])) := by
  constructor
  · rfl
  · refine ⟨{ clientWithSchema with
              transport := some { transWithSchema with
                                  recvQueue := [],
                                  sent := [{ Method := "mcp.list_tools",
                                             Params := .obj [] }] } }, ?_⟩
    rfl

/-! ### C2 — Connect self-deadlocks after a successful handshake -/

/-- A fresh client for the C2 theorems. -/
def clientNew : Client := NewClient { Name := "go-mcp", Version := "0.1.0" }

/-- A transport whose queued replies would satisfy the whole connect
sequence: a version-`"1.0"` handshake reply, a well-formed `list_tools`
reply and a well-formed `list_resources` reply. -/
def transHappy : Transport :=
  { startErr := none, connected := false, closed := false, closeErr := none,
    sendErr := none,
    recvQueue := [
      .ok { Result := .obj [("version", .strVal "1.0")], Error := none },
      .ok { Result := .obj [("tools", .arr [])], Error := none },
      .ok { Result := .obj [("resources", .arr [])], Error := none }],
    sent := [] }

/-- A transport whose handshake reply reports protocol version `"2.0"`. -/
def transMismatch : Transport :=
  { startErr := none, connected := false, closed := false, closeErr := none,
    sendErr := none,
    recvQueue := [.ok { Result := .obj [("version", .strVal "2.0")],
                        Error := none }],
    sent := [] }

/-- The state of `transMismatch` after the handshake exchange and the
close on the failure path: started, the handshake request written, the
reply consumed, then closed. -/
def transMismatchClosed : Transport :=
  { startErr := none, connected := false, closed := true, closeErr := none,
    sendErr := none, recvQueue := [],
    sent := [{ Method := "mcp.handshake",
               Params := .obj [("version", .strVal "1.0"),
                               ("client", .obj [("name", .strVal "go-mcp"),
                                                ("version", .strVal "0.1.0")])] }] }

/-- C2: the pre-handshake failure behaviour the claim describes is real —
on a version-mismatch reply `Connect` returns the error, closes the
transport and leaves the client unconnected — but after **any** successful
handshake `Connect` never returns: holding `c.mutex` (client.go:47) it
calls `discoverCapabilities`, whose `ListTools` read-lock (client.go:148)
and own write-lock (client.go:138) on the same non-reentrant
`sync.RWMutex` block forever.  Even on `transHappy`, whose queued replies
would let every discovery step succeed, `Connect` deadlocks, so the
tool-listing-failure and resource-listing clauses of the claim describe
executions the program cannot perform. -/
theorem C2_connect_deadlocks :
    clientNew.Connect transHappy = .blocksForever
    ∧ clientNew.Connect transMismatch =
        .returns (some ({ clientNew with transport := none },
                        transMismatchClosed,
                        .error "incompatible protocol version: got 2.0, expected 1.0"))
    ∧ ({ clientNew with transport := none } : Client).IsConnected = false
    ∧ transMismatchClosed.closed = true := by
  refine ⟨rfl, rfl, rfl, rfl⟩

end GoMcp
